import Mathlib

/-!
Shallow embedding of the image-upload HTTP service in `app.py`.

The service keeps images as files inside one configured directory
(`UPLOAD_FOLDER = "uploads"`).  We model the relevant fragment of the
filesystem as a list of existing directories plus an association list from
paths (lists of components) to byte contents.  Each Flask route becomes a
pure function from a filesystem state (and the request data) to a
`Response`; the upload route additionally returns the new state.

Library primitives used by the routes (`open`/`write`, `os.listdir`,
Flask's `send_from_directory`, `csv.DictWriter`) are not part of this
repository's sources; they are modelled from the spec's Storage Directory
Accessor contract (spec §4.1) and marked as such below.
-/

/-- Request and file bodies are raw byte strings; we model a byte string as a
list of byte values. -/
abbrev Bytes := List Nat

/-- A filesystem path, as a list of name components from the process root. -/
abbrev FsPath := List String

/-- The JSON (or raw-file) bodies the service can produce: `{"message": s}`,
`{"error": s}`, `{"imagenes": [...]}`, or raw file bytes. -/
inductive Body where
  | message (s : String)
  | error (s : String)
  | imagenes (names : List String)
  | file (content : Bytes)
deriving DecidableEq

/-- An HTTP response: a status code and a body. -/
structure Response where
  status : Nat
  body : Body
deriving DecidableEq

/-- The fragment of the filesystem visible to the service: which directories
exist, and the regular files with their contents. -/
structure FileSystem where
  dirs : List FsPath
  files : List (FsPath × Bytes)
deriving DecidableEq

/-- Look a path up in the file association list. -/
def lookupFile : List (FsPath × Bytes) → FsPath → Option Bytes
  | [], _ => none
  | (q, b) :: rest, p => if q = p then some b else lookupFile rest p

/-- Store contents `b` at path `p`, overwriting any previous entry
(`open(filepath, 'wb')` truncates). -/
def setFile (files : List (FsPath × Bytes)) (p : FsPath) (b : Bytes) :
    List (FsPath × Bytes) :=
  (p, b) :: files.filter (fun e => e.1 ≠ p)

/-- Read the contents stored at path `p`, if any. -/
def FileSystem.read (fs : FileSystem) (p : FsPath) : Option Bytes :=
  lookupFile fs.files p

/-- Render a path as a string, `os.path.join` style. -/
def joinPath (p : FsPath) : String := String.intercalate "/" p

/-- Constant `UPLOAD_FOLDER = 'uploads'` (app.py line 12). -/
def UPLOAD_FOLDER : String := "uploads"

/-- The upload directory as a path. -/
def uploadsPath : FsPath := [UPLOAD_FOLDER]

/-- Constant `filename = "received_image.jpg"` (app.py line 30): the fixed name every
upload is saved under. -/
def fixedFilename : String := "received_image.jpg"

/-- The path of the saved image: `uploads/received_image.jpg`. -/
def imgPath : FsPath := [UPLOAD_FOLDER, fixedFilename]

/-- Constant `filepath = os.path.join(UPLOAD_FOLDER, filename)` (app.py line 31). -/
def filepath : String := joinPath imgPath

/-- Modelled from the spec: the Storage Directory Accessor's
`saveImage(bytes) -> path` operation (spec §4.1), i.e. the behaviour of
`open(filepath, 'wb')` + `write` in app.py lines 35-36, which are Python
library calls not present in this repository's sources.  Writing succeeds
and overwrites any existing file when the parent directory exists and the
target is not itself a directory; otherwise it fails with an error text. -/
def saveImage (fs : FileSystem) (p : FsPath) (b : Bytes) :
    Except String FileSystem :=
  if p.dropLast ∈ fs.dirs then
    if p ∈ fs.dirs then Except.error ("Is a directory: " ++ joinPath p)
    else Except.ok ⟨fs.dirs, setFile fs.files p b⟩
  else Except.error ("No such file or directory: " ++ joinPath p)

/-- The entry names directly inside directory `dir`: the first component,
past `dir`, of any file path or directory path lying under `dir`
(deduplicated).  Subdirectories and non-image files are included. -/
def FileSystem.entries (fs : FileSystem) (dir : FsPath) : List String :=
  ((fs.files.map Prod.fst ++ fs.dirs).filterMap fun p =>
      if p.take dir.length = dir then (p.drop dir.length).head? else none).dedup

/-- Modelled from the spec: the accessor's `listImages()` operation
(spec §4.1), i.e. `os.listdir` in app.py line 50, a library call not in this
repository's sources.  It returns every entry name of the directory,
unfiltered by type, and fails when the directory does not exist. -/
def listdir (fs : FileSystem) (dir : FsPath) : Except String (List String) :=
  if dir ∈ fs.dirs then Except.ok (fs.entries dir)
  else Except.error ("No such file or directory: " ++ joinPath dir)

/-- Accumulating splitter for `splitPath`: collects the current component in
reverse while scanning the characters. -/
def splitPathAux : List Char → List Char → List String
  | [], acc => [⟨acc.reverse⟩]
  | c :: rest, acc =>
      if c = '/' then (⟨acc.reverse⟩ : String) :: splitPathAux rest []
      else splitPathAux rest (c :: acc)

/-- Split a filename on `/` into path components. -/
def splitPath (s : String) : List String := splitPathAux s.data []

/-- Resolve path components against a base directory: `..` pops one
component, `.` and empty components are skipped, anything else descends. -/
def resolvePath (base : FsPath) (comps : List String) : FsPath :=
  comps.foldl (fun acc c =>
    if c = ".." then acc.dropLast
    else if c = "." then acc
    else if c = "" then acc
    else acc ++ [c]) base

/-- Modelled from the spec: the accessor's `readImage(filename)` operation
(spec §4.1), i.e. Flask's `send_from_directory` in app.py line 64, a library
call not in this repository's sources.  Per the spec it fails when the
filename does not exist under the directory, otherwise returns the file's
bytes, and applies no protection against path traversal: the filename is
resolved against the directory as-is, so `..` components can escape it. -/
def send_from_directory (fs : FileSystem) (dir : FsPath) (filename : String) :
    Option Bytes :=
  fs.read (resolvePath dir (splitPath filename))

/-- Constant `ALLOWED_EXTENSIONS` of app.py line 16: the set of allowed
extensions, jpg, jpeg and png. -/
def ALLOWED_EXTENSIONS : List String := ["jpg", "jpeg", "png"]

/-- Boolean test used when scanning for the last dot of a filename. -/
def notDot (c : Char) : Bool := c != '.'

/-- Expression `filename.rsplit('.', 1)[1]` (app.py line 20): the substring after the
last `.` of the filename (meaningful only when a dot is present). -/
def rsplitExt (filename : String) : String :=
  ⟨(filename.data.reverse.takeWhile notDot).reverse⟩

/-- Function `allowed_file` (app.py lines 19-20): the filename contains a dot and the
lowercased substring after the last dot is an allowed extension. -/
def allowed_file (filename : String) : Bool :=
  decide ('.' ∈ filename.data) &&
    decide ((rsplitExt filename).toLower ∈ ALLOWED_EXTENSIONS)

/-- Route `POST /agregarImagen` (app.py lines 23-39).  An empty body is rejected
with 400; otherwise the raw bytes are written to the fixed
`uploads/received_image.jpg` path, answering 200 with a message naming the
saved path, or 500 with the exception text when the write fails.  The
returned state is the filesystem after the request. -/
def agregar_imagen (fs : FileSystem) (data : Bytes) : Response × FileSystem :=
  if data = [] then (⟨400, Body.error "No image data received"⟩, fs)
  else
    match saveImage fs imgPath data with
    | Except.ok fs2 =>
        (⟨200, Body.message ("Image successfully saved at " ++ filepath)⟩, fs2)
    | Except.error e =>
        (⟨500, Body.error ("Failed to save image: " ++ e)⟩, fs)

/-- Route `GET /verImagenes` (app.py lines 43-54).  Lists the upload directory and
answers 200 with the names (the comprehension in line 51 maps each entry to
itself), or 500 with the exception text when listing fails. -/
def ver_imagenes (fs : FileSystem) : Response :=
  match listdir fs uploadsPath with
  | Except.ok imagenes => ⟨200, Body.imagenes (imagenes.map fun img => img)⟩
  | Except.error e => ⟨500, Body.error ("Error al obtener las imágenes: " ++ e)⟩

/-- Route `GET /verImagen/<filename>` (app.py lines 57-66).  Serves the named file
from the upload directory, or answers 404 with a JSON error when it is not
found. -/
def ver_imagen (fs : FileSystem) (filename : String) : Response :=
  match send_from_directory fs uploadsPath filename with
  | some content => ⟨200, Body.file content⟩
  | none => ⟨404, Body.error "Imagen no encontrada"⟩

/-- A CSV row: an ordered mapping from field names to values (Python dicts
preserve insertion order). -/
abbrev Row := List (String × String)

/-- A field needs quoting when it contains a separator, quote or newline
(csv QUOTE_MINIMAL). -/
def needsQuote (s : String) : Bool :=
  s.data.any fun c => c == ',' || c == '\"' || c == '\n' || c == '\r'

/-- Double every quote character of a field being quoted. -/
def escapeQuotes (l : List Char) : List Char :=
  l.foldr (fun c acc => if c = '\"' then '\"' :: '\"' :: acc else c :: acc) []

/-- Modelled from the spec: one field as written by `csv.writer`, a Python
library facility not in this repository's sources (minimal quoting). -/
def quoteField (s : String) : String :=
  if needsQuote s then "\"" ++ (⟨escapeQuotes s.data⟩ : String) ++ "\"" else s

/-- Modelled from the spec: one record as written by `csv.writer` with the
default dialect — comma-separated fields terminated by CRLF. -/
def writeRecord (fields : List String) : String :=
  String.intercalate "," (fields.map quoteField) ++ "\r\n"

/-- Function `generar_csv` (app.py lines 70-79): empty input yields the empty string;
otherwise a `csv.DictWriter` with the first row's keys as fieldnames writes
the header and then every row's values in fieldname order (rows are uniform
mappings per spec §4.3; a missing key would be written as empty). -/
def generar_csv (data : List Row) : String :=
  match data with
  | [] => ""
  | r0 :: rest =>
      let fieldnames := r0.map Prod.fst
      writeRecord fieldnames ++
        String.join ((r0 :: rest).map fun row =>
          writeRecord (fieldnames.map fun k => ((row.lookup k).getD "")))

/-- A fresh state: the upload directory exists and is empty. -/
def freshFs : FileSystem := ⟨[uploadsPath], []⟩

/-- A state in which the upload directory itself is missing. -/
def emptyFs : FileSystem := ⟨[], []⟩

/-- A state with an empty upload directory and a file `secret.txt` stored
outside it, at the root. -/
def outsideFs : FileSystem := ⟨[uploadsPath], [(["secret.txt"], [9, 9, 9])]⟩

/-- Membership of a name in a directory, spelled as a predicate: some file
or directory path lies under `dir` and has that name as its next
component. -/
def isEntry (fs : FileSystem) (dir : FsPath) (s : String) : Prop :=
  ∃ p, p ∈ fs.files.map Prod.fst ++ fs.dirs ∧
    p.take dir.length = dir ∧ (p.drop dir.length).head? = some s

/-- A write followed by a read of the same path sees the written bytes. -/
theorem lookupFile_setFile (files : List (FsPath × Bytes)) (p : FsPath)
    (b : Bytes) : lookupFile (setFile files p b) p = some b := by
  simp [setFile, lookupFile]

/-- The fixed filename resolves, inside the upload directory, to the fixed
saved path. -/
theorem resolve_fixedFilename :
    resolvePath uploadsPath (splitPath fixedFilename) = imgPath := by decide

/-- C4: a `POST /agregarImagen` request with an empty body answers 400 with
the JSON body containing the error `No image data received`, and the
filesystem is returned unchanged: no file is written. -/
theorem empty_upload_rejected (fs : FileSystem) :
    agregar_imagen fs [] = (⟨400, Body.error "No image data received"⟩, fs) :=
  rfl

/-- C3: when the resolved filename holds no file under the upload directory,
`GET /verImagen/<filename>` answers 404 with the JSON body containing the
error `Imagen no encontrada`. -/
theorem missing_image_not_found (fs : FileSystem) (filename : String)
    (h : fs.read (resolvePath uploadsPath (splitPath filename)) = none) :
    ver_imagen fs filename = ⟨404, Body.error "Imagen no encontrada"⟩ := by
  unfold ver_imagen send_from_directory
  rw [h]

theorem missing_image_not_found_witness :
    emptyFs.read (resolvePath uploadsPath (splitPath "nope.jpg")) = none ∧
    ver_imagen emptyFs "nope.jpg" = ⟨404, Body.error "Imagen no encontrada"⟩ :=
  ⟨rfl, missing_image_not_found emptyFs "nope.jpg" rfl⟩

/-- C5: the serving route applies no path-traversal validation: with a file
`secret.txt` stored at the filesystem root, outside the upload directory,
`GET /verImagen/../secret.txt` resolves to a path that does not lie under
the upload directory and still serves that file's bytes with status 200. -/
theorem path_traversal_escapes :
    ver_imagen outsideFs "../secret.txt" = ⟨200, Body.file [9, 9, 9]⟩ ∧
    resolvePath uploadsPath (splitPath "../secret.txt") = ["secret.txt"] ∧
    (resolvePath uploadsPath (splitPath "../secret.txt")).take
      uploadsPath.length ≠ uploadsPath := by
  decide

/-- C6: when the body is non-empty and the filesystem write fails with
exception text `e`, the upload route answers 500 with a JSON error message
containing `e`, and the filesystem is unchanged. -/
theorem failed_write_500 (fs : FileSystem) (data : Bytes) (e : String)
    (hd : data ≠ []) (he : saveImage fs imgPath data = Except.error e) :
    agregar_imagen fs data =
      (⟨500, Body.error ("Failed to save image: " ++ e)⟩, fs) ∧
    e.data <:+: ("Failed to save image: " ++ e).data := by
  constructor
  · unfold agregar_imagen
    rw [if_neg hd, he]
  · exact ⟨"Failed to save image: ".data, [], by simp⟩

theorem failed_write_500_witness :
    agregar_imagen emptyFs [1] =
      (⟨500, Body.error ("Failed to save image: " ++
        ("No such file or directory: " ++ joinPath imgPath))⟩, emptyFs) :=
  (failed_write_500 emptyFs [1] ("No such file or directory: " ++
    joinPath imgPath) (by decide) rfl).1

/-- C8: when the body is non-empty and the filesystem write succeeds, the
upload route answers 200 with a JSON confirmation message that contains the
saved path `uploads/received_image.jpg`, and returns the written state. -/
theorem successful_upload_200 (fs fs2 : FileSystem) (data : Bytes)
    (hd : data ≠ []) (he : saveImage fs imgPath data = Except.ok fs2) :
    agregar_imagen fs data =
      (⟨200, Body.message ("Image successfully saved at " ++ filepath)⟩,
       fs2) ∧
    filepath.data <:+: ("Image successfully saved at " ++ filepath).data := by
  constructor
  · unfold agregar_imagen
    rw [if_neg hd, he]
  · exact ⟨"Image successfully saved at ".data, [], by simp⟩

theorem successful_upload_200_witness :
    agregar_imagen freshFs [1] =
      (⟨200, Body.message ("Image successfully saved at " ++ filepath)⟩,
       ⟨[uploadsPath], [(imgPath, [1])]⟩) :=
  (successful_upload_200 freshFs ⟨[uploadsPath], [(imgPath, [1])]⟩ [1]
    (by decide) rfl).1

/-- C9: `generar_csv` returns the empty string on an empty input, and on a
non-empty input its output starts with the header record built from the
keys of the first row. -/
theorem generar_csv_header (r0 : Row) (rest : List Row) :
    generar_csv [] = "" ∧
    ∃ t, generar_csv (r0 :: rest) = writeRecord (r0.map Prod.fst) ++ t :=
  ⟨rfl, _, rfl⟩

/-- C1: uploading a non-empty byte string `b` and then fetching
`/verImagen/received_image.jpg` returns exactly the bytes `b`, whenever the
upload directory exists (so the write can succeed) and the target name is
not itself a directory. -/
theorem upload_then_fetch_roundtrip (fs : FileSystem) (b : Bytes)
    (hb : b ≠ []) (hdir : uploadsPath ∈ fs.dirs) (hnd : imgPath ∉ fs.dirs) :
    ver_imagen (agregar_imagen fs b).2 fixedFilename = ⟨200, Body.file b⟩ := by
  have hdrop : imgPath.dropLast ∈ fs.dirs := hdir
  have hsave : saveImage fs imgPath b =
      Except.ok ⟨fs.dirs, setFile fs.files imgPath b⟩ := by
    unfold saveImage
    rw [if_pos hdrop, if_neg hnd]
  have hstate : (agregar_imagen fs b).2 =
      ⟨fs.dirs, setFile fs.files imgPath b⟩ := by
    unfold agregar_imagen
    rw [if_neg hb, hsave]
  rw [hstate]
  unfold ver_imagen send_from_directory FileSystem.read
  rw [resolve_fixedFilename]
  rw [show (⟨fs.dirs, setFile fs.files imgPath b⟩ : FileSystem).files =
    setFile fs.files imgPath b from rfl]
  rw [lookupFile_setFile]

theorem upload_then_fetch_roundtrip_witness :
    ver_imagen (agregar_imagen freshFs [1, 2, 3]).2 fixedFilename =
      ⟨200, Body.file [1, 2, 3]⟩ :=
  upload_then_fetch_roundtrip freshFs [1, 2, 3] (by decide) (by decide)
    (by decide)

/-- A first upload on a fresh state succeeds and stores the bytes under the
fixed path. -/
theorem agregar_on_fresh (b : Bytes) (hb : b ≠ []) :
    agregar_imagen freshFs b =
      (⟨200, Body.message ("Image successfully saved at " ++ filepath)⟩,
       ⟨[uploadsPath], [(imgPath, b)]⟩) := by
  unfold agregar_imagen
  rw [if_neg hb]
  rfl

/-- A second upload on the single-image state overwrites the stored bytes. -/
theorem agregar_on_single (a b : Bytes) (hb : b ≠ []) :
    agregar_imagen ⟨[uploadsPath], [(imgPath, a)]⟩ b =
      (⟨200, Body.message ("Image successfully saved at " ++ filepath)⟩,
       ⟨[uploadsPath], [(imgPath, b)]⟩) := by
  unfold agregar_imagen
  rw [if_neg hb]
  rfl

/-- C2: every upload answered with 200 wrote the bytes to the single fixed
path `uploads/received_image.jpg`; starting from a fresh state, uploading
`A` and then `B` leaves a state in which fetching the image returns `B`'s
bytes and the listing shows exactly the one entry `received_image.jpg`. -/
theorem upload_overwrites_single_slot (A B : Bytes) (hA : A ≠ [])
    (hB : B ≠ []) :
    (∀ fs data resp fs2, agregar_imagen fs data = (resp, fs2) →
        resp.status = 200 → fs2.files = setFile fs.files imgPath data) ∧
    ver_imagen (agregar_imagen (agregar_imagen freshFs A).2 B).2 fixedFilename
      = ⟨200, Body.file B⟩ ∧
    ver_imagenes (agregar_imagen (agregar_imagen freshFs A).2 B).2
      = ⟨200, Body.imagenes [fixedFilename]⟩ := by
  have h1 : (agregar_imagen freshFs A).2 =
      ⟨[uploadsPath], [(imgPath, A)]⟩ := by
    rw [agregar_on_fresh A hA]
  have h2 : (agregar_imagen (⟨[uploadsPath], [(imgPath, A)]⟩ : FileSystem)
      B).2 = ⟨[uploadsPath], [(imgPath, B)]⟩ := by
    rw [agregar_on_single A B hB]
  refine ⟨?_, ?_, ?_⟩
  · intro fs data resp fs2 h h200
    unfold agregar_imagen at h
    by_cases hd : data = []
    · rw [if_pos hd] at h
      injection h with hr hf
      subst hr
      simp at h200
    · rw [if_neg hd] at h
      cases hs : saveImage fs imgPath data with
      | error e =>
          simp only [hs] at h
          injection h with hr hf
          subst hr
          simp at h200
      | ok fs3 =>
          simp only [hs] at h
          injection h with hr hf
          subst hf
          unfold saveImage at hs
          split_ifs at hs with hpar hdir
          cases hs
          rfl
  · rw [h1, h2]
    rfl
  · rw [h1, h2]
    rfl

theorem upload_overwrites_single_slot_witness :
    ver_imagen (agregar_imagen (agregar_imagen freshFs [1]).2 [2]).2
      fixedFilename = ⟨200, Body.file [2]⟩ ∧
    ver_imagenes (agregar_imagen (agregar_imagen freshFs [1]).2 [2]).2
      = ⟨200, Body.imagenes [fixedFilename]⟩ :=
  ⟨(upload_overwrites_single_slot [1] [2] (by decide) (by decide)).2.1,
   (upload_overwrites_single_slot [1] [2] (by decide) (by decide)).2.2⟩

/-- C7: `GET /verImagenes` answers 200 with exactly the directory's entry
names — every file or subdirectory path lying under the upload directory
contributes its next component, unfiltered by type — when the upload
directory exists, and 500 with a JSON error message when listing fails
because the directory is missing. -/
theorem listing_returns_all_entries (fs : FileSystem) (s : String) :
    ver_imagenes fs =
      (if uploadsPath ∈ fs.dirs
       then ⟨200, Body.imagenes (fs.entries uploadsPath)⟩
       else ⟨500, Body.error ("Error al obtener las imágenes: " ++
         ("No such file or directory: " ++ joinPath uploadsPath))⟩) ∧
    (s ∈ fs.entries uploadsPath ↔ isEntry fs uploadsPath s) := by
  constructor
  · unfold ver_imagenes listdir
    by_cases h : uploadsPath ∈ fs.dirs
    · rw [if_pos h, if_pos h]
      simp [List.map_id']
    · rw [if_neg h, if_neg h]
  · unfold FileSystem.entries isEntry
    rw [List.mem_dedup, List.mem_filterMap]
    constructor
    · rintro ⟨p, hp, hif⟩
      by_cases hc : p.take uploadsPath.length = uploadsPath
      · rw [if_pos hc] at hif
        exact ⟨p, hp, hc, hif⟩
      · rw [if_neg hc] at hif
        exact absurd hif (by simp)
    · rintro ⟨p, hp, hc, hh⟩
      refine ⟨p, hp, ?_⟩
      rw [if_pos hc]
      exact hh

/-- Scanning a list that is known to be a dot-free block followed by a dot
takes exactly the block. -/
theorem takeWhile_notDot_eq (b rest : List Char) (hb : '.' ∉ b) :
    (b ++ '.' :: rest).takeWhile notDot = b := by
  induction b with
  | nil => simp [List.takeWhile_cons, notDot]
  | cons c t ih =>
      have hc : c ≠ '.' := fun hcc => hb (by simp [hcc])
      have ht : '.' ∉ t := fun hmem => hb (List.mem_cons_of_mem _ hmem)
      simp [List.takeWhile_cons, notDot, hc, ih ht]

/-- Dropping the dot-free head of a list that contains a dot stops at a
dot. -/
theorem dropWhile_notDot_mem (l : List Char) (h : '.' ∈ l) :
    ∃ t, l.dropWhile notDot = '.' :: t := by
  induction l with
  | nil => cases h
  | cons c t ih =>
      by_cases hc : c = '.'
      · subst hc
        exact ⟨t, by simp [List.dropWhile_cons, notDot]⟩
      · have hmem : '.' ∈ t := by
          rcases List.mem_cons.mp h with h1 | h1
          · exact absurd h1.symm hc
          · exact h1
        rcases ih hmem with ⟨t2, ht2⟩
        exact ⟨t2, by simp [List.dropWhile_cons, notDot, hc, ht2]⟩

/-- No dot occurs in the dot-free scan of a list. -/
theorem not_mem_takeWhile_notDot (l : List Char) :
    '.' ∉ l.takeWhile notDot := by
  intro h
  have := List.mem_takeWhile_imp h
  simp [notDot] at this

/-- Reversal turns a block-dot-block decomposition around. -/
theorem reverse_dot_append (x y : List Char) :
    (x ++ '.' :: y).reverse = y.reverse ++ '.' :: x.reverse := by
  simp

/-- Any character list containing a dot splits as a front part, a last dot
and a dot-free extension, and the extension is what the reversed dot-free
scan computes. -/
theorem ext_decomposition (l : List Char) (h : '.' ∈ l) :
    ∃ a b, l = a ++ '.' :: b ∧ '.' ∉ b ∧
      (l.reverse.takeWhile notDot).reverse = b := by
  have hr : '.' ∈ l.reverse := List.mem_reverse.mpr h
  rcases dropWhile_notDot_mem l.reverse hr with ⟨t, ht⟩
  have hsplit : l.reverse = l.reverse.takeWhile notDot ++ '.' :: t := by
    rw [← ht]
    rw [List.takeWhile_append_dropWhile]
  refine ⟨t.reverse, (l.reverse.takeWhile notDot).reverse, ?_, ?_, rfl⟩
  · have h2 := congrArg List.reverse hsplit
    rw [List.reverse_reverse] at h2
    conv_lhs => rw [h2]
    rw [reverse_dot_append]
  · intro hmem
    exact not_mem_takeWhile_notDot l.reverse (List.mem_reverse.mp hmem)

/-- The extension computed by `rsplitExt` on a filename whose characters
decompose around a last dot is exactly the part after that dot. -/
theorem rsplitExt_decomp (f : String) (a b : List Char)
    (hl : f.data = a ++ '.' :: b) (hb : '.' ∉ b) :
    rsplitExt f = ⟨b⟩ := by
  unfold rsplitExt
  have hrb : '.' ∉ b.reverse := fun hmem => hb (List.mem_reverse.mp hmem)
  rw [hl, reverse_dot_append, takeWhile_notDot_eq b.reverse a.reverse hrb,
    List.reverse_reverse]

/-- C10: `allowed_file` holds exactly when the filename contains a dot and
the lowercased part after its last dot is one of the allowed extensions; in
particular it is false for any dot-free filename; and the upload route does
not consult it — the only client-rejection the route performs is the
empty-body 400. -/
theorem allowed_file_characterization (f : String) (fs : FileSystem)
    (data : Bytes) :
    (allowed_file f = true ↔
      ∃ a b : List Char, f.data = a ++ '.' :: b ∧ '.' ∉ b ∧
        (String.mk b).toLower ∈ ALLOWED_EXTENSIONS) ∧
    ('.' ∉ f.data → allowed_file f = false) ∧
    ((agregar_imagen fs data).1.status = 400 ↔ data = []) := by
  refine ⟨?_, ?_, ?_⟩
  · constructor
    · intro h
      rw [allowed_file, Bool.and_eq_true, decide_eq_true_iff,
        decide_eq_true_iff] at h
      rcases ext_decomposition f.data h.1 with ⟨a, b, hl, hb, hext⟩
      refine ⟨a, b, hl, hb, ?_⟩
      have hre : rsplitExt f = ⟨b⟩ := rsplitExt_decomp f a b hl hb
      rw [← hre]
      exact h.2
    · rintro ⟨a, b, hl, hb, hmem⟩
      have hdot : '.' ∈ f.data := by
        rw [hl]
        simp
      have hre : rsplitExt f = ⟨b⟩ := rsplitExt_decomp f a b hl hb
      rw [allowed_file, Bool.and_eq_true, decide_eq_true_iff,
        decide_eq_true_iff, hre]
      exact ⟨hdot, hmem⟩
  · intro h
    rw [allowed_file]
    simp [h]
  · by_cases hd : data = []
    · subst hd
      simp [agregar_imagen]
    · rw [agregar_imagen, if_neg hd]
      cases hs : saveImage fs imgPath data with
      | error e => simp [hd]
      | ok fs2 => simp [hd]

theorem allowed_file_characterization_witness :
    allowed_file "photo" = false ∧
    (agregar_imagen freshFs []).1.status = 400 :=
  ⟨(allowed_file_characterization "photo" freshFs []).2.1 (by decide),
   (allowed_file_characterization "photo" freshFs []).2.2.mpr rfl⟩
